import Mathlib

/-!
A shallow embedding of the ingestion-and-normalization pipeline of the
Twitter-jobs dashboard (`src/app.py`): the sample-data generator, the
fetcher with fallback, the region filter, the query builder, the CSV
export and the location aggregation.  Tables (`pandas.DataFrame` values
built from lists of field dictionaries) are embedded as a list of column
names plus a list of records; the external search dependency (`snscrape`)
is embedded as an environment value describing whether the module loads,
which raw items its iterator yields, and whether the iterator raises
after yielding them.  All definitions are executable.
-/

/-- One normalized post, the row shape every pipeline table uses
(`display_name`, `handle`, `text`, `url`, `location`, all strings). -/
structure Record where
  display_name : String
  handle : String
  text : String
  url : String
  location : String
  deriving DecidableEq, Repr

/-- The five column labels of a Record table, in dictionary insertion
order, as inferred by `pd.DataFrame` from the row dictionaries built in
`generate_sample_data` and `scrape_tweets`. -/
def record_cols : List String :=
  ["display_name", "handle", "text", "url", "location"]

/-- Embedding of a `pandas.DataFrame`: its column labels and its rows.
Keeping the column list separate from the rows lets the embedding
distinguish `pd.DataFrame([])` (no columns at all) from an empty table
that still carries the Record schema. -/
structure DFrame where
  cols : List String
  recs : List Record
  deriving DecidableEq, Repr

/-- Embedding of `pd.DataFrame(rows)` for a list of row dictionaries with
the Record keys: an empty list yields a frame with no columns, a
non-empty one yields the five Record columns. -/
def mkRecordFrame (rows : List Record) : DFrame :=
  { cols := if rows.isEmpty then [] else record_cols, recs := rows }

/-- The fixed catalog of sample templates from `generate_sample_data`
(`names` in `src/app.py`): display name, handle, text, location. -/
def names : List (String × String × String × String) :=
  [("Aditi Sharma", ("aditidesigns", ("Hiring UI/UX designer for a fintech MVP. DM your portfolio!", "Bengaluru, India"))),
   ("Ravi Patel", ("brandkraft_ravi", ("Looking for a freelance brand identity designer for a quick turnaround", "Ahmedabad, IN"))),
   ("UX Careers", ("ux_careers_daily", ("We are hiring UI/UX Designer (Remote, India). Figma, prototyping, user testing.", "Remote"))),
   ("TechNest", ("technest_jobs", ("Product team needs a UI Designer. Mobile-first. 3-month contract.", "Pune"))),
   ("CreativeHub", ("creativehub", ("Brand identity designer needed for D2C skincare brand.", "Mumbai"))),
   ("Sarah Lee", ("sarahdesigns", ("Hiring UI/UX (Mid-level). SaaS. Apply with case studies.", "San Francisco, CA"))),
   ("Ankit Gupta", ("ankit_hires", ("UI/UX freelancer for a marketplace redesign. Weekly sprints.", "Gurugram"))),
   ("StartUpWave", ("startup_wave", ("Brand identity + UI kit for a stealth AI startup. Paid, remote.", "Remote")))]

/-- The row built for index `i` in the loop of `generate_sample_data`:
template `names[i % len(names)]`, text suffixed with a space, a hash mark
and `1000 + i`, a synthetic status URL, and the handle prefixed with an
at sign. -/
def sampleRow (i : Nat) : Record :=
  let t := names.get ⟨i % names.length, Nat.mod_lt i (by decide)⟩
  { display_name := t.1
    handle := "@" ++ t.2.1
    text := t.2.2.1 ++ " #" ++ Nat.repr (1000 + i)
    url := "https://twitter.com/" ++ t.2.1 ++ "/status/" ++ Nat.repr (1700000000000000000 + i)
    location := t.2.2.2 }

/-- `generate_sample_data(n)` from `src/app.py`: one row per index in
`range n`, collected into a DataFrame. -/
def generate_sample_data (n : Nat) : DFrame :=
  mkRecordFrame ((List.range n).map sampleRow)

/-- One raw item yielded by the live `snscrape` iterator.  Each field is
the value `getattr` finds, with `none` standing for a missing attribute
or a `None` value (both are falsy in the Python coalescing below, as is
the empty string). -/
structure RawItem where
  username : Option String
  displayname : Option String
  userlocation : Option String
  content : Option String
  rawContent : Option String
  url : Option String
  deriving DecidableEq, Repr

/-- Python truthiness coalescing `x or d` for an optional string `x`:
`None` and the empty string both fall back to `d`. -/
def pyOr (v : Option String) (d : String) : String :=
  match v with
  | none => d
  | some s => if s = "" then d else s

/-- The per-item normalization in the loop body of `scrape_tweets`:
handle defaults to empty, display name falls back to the handle, text
falls back from `content` to `rawContent` (itself defaulting to empty),
URL falls back to a profile URL built from the handle, location defaults
to empty, and a non-empty handle is rendered with a leading at sign. -/
def normRaw (it : RawItem) : Record :=
  let handle := pyOr it.username ""
  { display_name := pyOr it.displayname handle
    handle := if handle = "" then "" else "@" ++ handle
    text := pyOr it.content (match it.rawContent with | none => "" | some s => s)
    url := pyOr it.url ("https://twitter.com/" ++ handle)
    location := pyOr it.userlocation "" }

/-- The state of the external search dependency for one run: either the
`snscrape` import fails, or the iterator yields `stream` and then (when
`raisesAfter` is true) raises an exception on the next pull. -/
inductive FetchEnv where
  | noModule : FetchEnv
  | live (stream : List RawItem) (raisesAfter : Bool) : FetchEnv
  deriving DecidableEq, Repr

/-- `scrape_tweets(query, limit)` from `src/app.py`, as a function of the
dependency environment.  The loop pulls items while fewer than `limit`
have been collected, so an exception raised after the stream is observed
(and caught, falling back to sample data) exactly when the stream has at
most `limit` items; otherwise the loop breaks first.  Catching is
embedded in the case split, so the function is total: no exception
escapes.  An empty collected table also falls back to sample data. -/
def scrape_tweets (env : FetchEnv) (q : String) (limit : Nat) : DFrame :=
  match env with
  | .noModule => generate_sample_data limit
  | .live stream raisesAfter =>
    if raisesAfter = true ∧ stream.length ≤ limit then
      generate_sample_data limit
    else
      let df := mkRecordFrame ((stream.take limit).map normRaw)
      if df.recs.isEmpty then generate_sample_data limit else df

/-- Characters removed by Python `str.strip()` at either end. -/
def stripChars (l : List Char) : List Char :=
  ((l.dropWhile Char.isWhitespace).reverse.dropWhile Char.isWhitespace).reverse

/-- Python `s.strip()`. -/
def pyStrip (s : String) : String :=
  ⟨stripChars s.data⟩

/-- Python `s.lower()` (character-wise lowercasing). -/
def strLower (s : String) : String :=
  ⟨s.data.map Char.toLower⟩

/-- Helper for `pySplitComma`: splits the remaining characters at every
comma, `acc` holding the current piece reversed. -/
def splitCommaCh : List Char → List Char → List (List Char)
  | [], acc => [acc.reverse]
  | c :: cs, acc =>
    if c = ',' then acc.reverse :: splitCommaCh cs [] else splitCommaCh cs (c :: acc)

/-- Python `s.split(",")`. -/
def pySplitComma (s : String) : List String :=
  (splitCommaCh s.data []).map (fun l => ⟨l⟩)

/-- Is `pre` a prefix of `l`? (Plain Boolean list computation.) -/
def isPrefixCh : List Char → List Char → Bool
  | [], _ => true
  | _ :: _, [] => false
  | a :: as, b :: bs => a == b && isPrefixCh as bs

/-- Python substring membership `pat in hay` on character lists. -/
def containsCh : List Char → List Char → Bool
  | [], pat => pat.isEmpty
  | a :: t, pat => isPrefixCh pat (a :: t) || containsCh t pat

/-- Python `pat in s` for strings. -/
def strContains (s pat : String) : Bool :=
  containsCh s.data pat.data

/-- The token list computed inside `apply_region_filter`:
`[r.strip().lower() for r in region_input.split(",") if r.strip()]`. -/
def tokensOf (s : String) : List String :=
  ((pySplitComma s).filter (fun r => !(pyStrip r == ""))).map (fun r => strLower (pyStrip r))

/-- `apply_region_filter(df, region_input)` from `src/app.py`: return the
table unchanged when the stripped filter string is empty or no non-empty
token remains, else keep the rows whose lowercased location contains at
least one token as a substring. -/
def apply_region_filter (df : DFrame) (region_input : String) : DFrame :=
  if pyStrip region_input = "" then df
  else
    let regions := tokensOf region_input
    if regions = [] then df
    else
      { df with recs := df.recs.filter (fun row => regions.any (fun r => strContains (strLower row.location) r)) }

/-- The module-level query expression of `src/app.py`:
`f'{keywords} lang:en exclude:retweets exclude:replies'`. -/
def query (keywords : String) : String :=
  keywords ++ " lang:en exclude:retweets exclude:replies"

/-- The default keyword expression of the sidebar text input. -/
def default_keywords : String :=
  "(\"ui designer\" OR \"ux designer\" OR \"ui/ux\" OR \"product designer\" OR \"brand identity designer\" OR \"hiring ui/ux\")"

/-- Does a field need CSV quoting (Python `csv` `QUOTE_MINIMAL`, as used
by `DataFrame.to_csv`)? -/
def needsQuote (s : String) : Bool :=
  s.data.any (fun c => c == ',' || c == '"' || c == '\n' || c == '\r')

/-- Double every quote character, for a quoted CSV field. -/
def escQuotes : List Char → List Char
  | [] => []
  | c :: cs => if c = '"' then '"' :: '"' :: escQuotes cs else c :: escQuotes cs

/-- Serialize one CSV field with minimal quoting. -/
def csvField (s : String) : String :=
  if needsQuote s then "\"" ++ (⟨escQuotes s.data⟩ : String) ++ "\"" else s

/-- Join strings with comma separators. -/
def joinComma : List String → String
  | [] => ""
  | [x] => x
  | x :: y :: xs => x ++ "," ++ joinComma (y :: xs)

/-- The field of a record addressed by a column label. -/
def fieldOf (r : Record) (c : String) : String :=
  if c = "display_name" then r.display_name
  else if c = "handle" then r.handle
  else if c = "text" then r.text
  else if c = "url" then r.url
  else if c = "location" then r.location
  else ""

/-- Concatenation of a list of strings (the rows written in order). -/
def concatAll : List String → String
  | [] => ""
  | s :: t => s ++ concatAll t

/-- `df.to_csv(index=False)`: the header row (the comma-joined column
labels) then one CSV row per record, each terminated by a newline, with
no index column. -/
def to_csv (df : DFrame) : String :=
  joinComma (df.cols.map csvField) ++ "\n"
    ++ concatAll (df.recs.map (fun r => joinComma (df.cols.map (fun c => csvField (fieldOf r c))) ++ "\n"))

/-- Number of newline characters, i.e. of newline-terminated lines. -/
def countNL (s : String) : Nat :=
  s.data.count '\n'

/-- The text before the first newline. -/
def firstLine (s : String) : String :=
  ⟨s.data.takeWhile (fun c => !(c == '\n'))⟩

/-- Code-point lexicographic comparison on character lists, the string
order Python (and hence the pandas `groupby` key sort) uses. -/
def lexLeB : List Char → List Char → Bool
  | [], _ => true
  | _ :: _, [] => false
  | a :: as, b :: bs =>
    if a.toNat < b.toNat then true
    else if b.toNat < a.toNat then false
    else lexLeB as bs

/-- Lexicographic (code-point) order on strings. -/
def keyLe (a b : String) : Prop :=
  lexLeB a.data b.data = true

instance : DecidableRel keyLe :=
  fun a b => instDecidableEqBool (lexLeB a.data b.data) true

/-- Strict lexicographic (code-point) order on strings. -/
def keyLt (a b : String) : Prop :=
  keyLe a b ∧ ¬ keyLe b a

/-- Dictionary-order comparison is total. -/
theorem lexLeB_total : ∀ l m : List Char, lexLeB l m = true ∨ lexLeB m l = true
  | [], _ => Or.inl rfl
  | _ :: _, [] => Or.inr rfl
  | a :: as, b :: bs => by
    rcases Nat.lt_trichotomy a.toNat b.toNat with h | h | h
    · exact Or.inl (by simp [lexLeB, h])
    · have hn : ¬ a.toNat < b.toNat := by omega
      have hn2 : ¬ b.toNat < a.toNat := by omega
      rcases lexLeB_total as bs with ih | ih
      · exact Or.inl (by simp [lexLeB, hn, hn2, ih])
      · exact Or.inr (by simp [lexLeB, hn, hn2, ih])
    · exact Or.inr (by simp [lexLeB, h])

/-- Dictionary-order comparison is transitive. -/
theorem lexLeB_trans : ∀ l m n : List Char,
    lexLeB l m = true → lexLeB m n = true → lexLeB l n = true
  | [], _, _, _, _ => rfl
  | _ :: _, [], _, h, _ => by simp [lexLeB] at h
  | _ :: _, _ :: _, [], _, h => by simp [lexLeB] at h
  | a :: as, b :: bs, c :: cs, h1, h2 => by
    simp only [lexLeB] at h1 h2 ⊢
    rcases Nat.lt_trichotomy a.toNat c.toNat with hac | hac | hac
    · simp [hac]
    · have hn1 : ¬ a.toNat < c.toNat := by omega
      have hn2 : ¬ c.toNat < a.toNat := by omega
      rw [if_neg hn1, if_neg hn2]
      rcases Nat.lt_trichotomy a.toNat b.toNat with hab | hab | hab
      · have hx : ¬ b.toNat < c.toNat := by omega
        have hy : c.toNat < b.toNat := by omega
        rw [if_neg hx, if_pos hy] at h2
        exact absurd h2 Bool.false_ne_true
      · have ha1 : ¬ a.toNat < b.toNat := by omega
        have ha2 : ¬ b.toNat < a.toNat := by omega
        have hb1 : ¬ b.toNat < c.toNat := by omega
        have hb2 : ¬ c.toNat < b.toNat := by omega
        rw [if_neg ha1, if_neg ha2] at h1
        rw [if_neg hb1, if_neg hb2] at h2
        exact lexLeB_trans as bs cs h1 h2
      · have hx : ¬ a.toNat < b.toNat := by omega
        rw [if_neg hx, if_pos hab] at h1
        exact absurd h1 Bool.false_ne_true
    · have hba : ¬ b.toNat < a.toNat := by
        intro hba
        have hx : ¬ a.toNat < b.toNat := by omega
        rw [if_neg hx, if_pos hba] at h1
        exact absurd h1 Bool.false_ne_true
      have hcb : ¬ c.toNat < b.toNat := by
        intro hcb
        have hx : ¬ b.toNat < c.toNat := by omega
        rw [if_neg hx, if_pos hcb] at h2
        exact absurd h2 Bool.false_ne_true
      omega

/-- Dictionary-order comparison is antisymmetric. -/
theorem lexLeB_antisymm : ∀ l m : List Char,
    lexLeB l m = true → lexLeB m l = true → l = m
  | [], [], _, _ => rfl
  | [], _ :: _, _, h => by simp [lexLeB] at h
  | _ :: _, [], h, _ => by simp [lexLeB] at h
  | a :: as, b :: bs, h1, h2 => by
    simp only [lexLeB] at h1 h2
    rcases Nat.lt_trichotomy a.toNat b.toNat with hab | hab | hab
    · simp [hab, Nat.lt_asymm hab] at h2
    · have hn : ¬ a.toNat < b.toNat := by omega
      have hn2 : ¬ b.toNat < a.toNat := by omega
      simp only [hn, hn2, ite_false] at h1 h2
      have heq : a = b :=
        Char.ext (UInt32.toNat.inj
          (Nat.le_antisymm (Nat.le_of_not_lt hn2) (Nat.le_of_not_lt hn)))
      rw [heq, lexLeB_antisymm as bs h1 h2]
    · simp [hab, Nat.lt_asymm hab] at h1

instance : IsTotal String keyLe :=
  ⟨fun a b => lexLeB_total a.data b.data⟩

instance : IsTrans String keyLe :=
  ⟨fun a b c => lexLeB_trans a.data b.data c.data⟩

theorem keyLe_antisymm {a b : String} (h1 : keyLe a b) (h2 : keyLe b a) : a = b := by
  cases a; cases b
  exact congrArg String.mk (lexLeB_antisymm _ _ h1 h2)

/-- Comparison of `(location, size)` pairs by size, the key of the
`sort_values("size", ascending=False)` step (whose implementation
argsorts ascending and then reverses the index order). -/
def bySize (a b : String × Nat) : Prop :=
  a.2 ≤ b.2

instance : DecidableRel bySize :=
  fun a b => Nat.decLe a.2 b.2

instance : IsTotal (String × Nat) bySize :=
  ⟨fun a b => Nat.le_total a.2 b.2⟩

instance : IsTrans (String × Nat) bySize :=
  ⟨fun _ _ _ => Nat.le_trans⟩

/-- First-seen deduplication of a list of location labels. -/
def dedupFS : List String → List String
  | [] => []
  | x :: xs => x :: (dedupFS xs).filter (fun y => !(y == x))

/-- `df.groupby("location", as_index=False).size()` on a list of location
labels: pandas emits one `(label, size)` row per distinct label, with the
labels sorted ascending (the `sort=True` default of `groupby`). -/
def groupby_size (locs : List String) : List (String × Nat) :=
  (List.insertionSort keyLe (dedupFS locs)).map (fun k => (k, locs.count k))

/-- Empty locations become the literal label `Unknown`
(`.fillna("").replace("", "Unknown")`). -/
def normLoc (s : String) : String :=
  if s = "" then "Unknown" else s

/-- The `loc_counts` aggregation of `src/app.py`: substitute `Unknown`
for empty locations, group by location with counts, sort by count
descending, keep the top 15.  The descending sort is embedded as pandas
implements it: a stable ascending sort of the group rows by size followed
by reversal of the resulting order (`nargsort` computes an ascending
argsort and reverses it when `ascending=False`). -/
def loc_counts (df : DFrame) : List (String × Nat) :=
  let locs := df.recs.map (fun r => normLoc r.location)
  ((List.insertionSort bySize (groupby_size locs)).reverse).take 15

/-- Comparison of `(location, size)` pairs by descending size. -/
def bySizeGe (a b : String × Nat) : Prop :=
  b.2 ≤ a.2

instance : DecidableRel bySizeGe :=
  fun a b => Nat.decLe b.2 a.2

/-- The aggregation as claim C2 words it (spec side of the refinement
comparison, not the source): groups in first-seen order, then a stable
sort by count descending so that equal-count groups keep their
first-seen order, truncated to 15. -/
def claimAggFirstSeen (df : DFrame) : List (String × Nat) :=
  let locs := df.recs.map (fun r => normLoc r.location)
  (List.insertionSort bySizeGe ((dedupFS locs).map (fun k => (k, locs.count k)))).take 15

/-- The outputs of one run of the page script that depend on the
pipeline: the fetched table, the filtered table, the shown counts, the
exported CSV, the chart input (when charting happens) and the feed
rows. -/
structure AppOutputs where
  df : DFrame
  df_filtered : DFrame
  shown : Nat × Nat
  csv : String
  chart : Option (List (String × Nat))
  feed : List Record
  deriving DecidableEq, Repr

/-- One run of the page script of `src/app.py` below the sidebar: build
the query, fetch live or sample data, filter by region, export CSV,
optionally chart the aggregation (the chart is skipped when the table is
empty or `altair` is unavailable; `assign` copies the frame, so the
aggregation leaves `df_filtered` untouched), and render the feed rows. -/
def runApp (live : Bool) (env : FetchEnv) (keywords : String)
    (max_tweets : Nat) (region : String) (altairAvailable : Bool) : AppOutputs :=
  let q := query keywords
  let df := if live then scrape_tweets env q max_tweets else generate_sample_data max_tweets
  let dff := apply_region_filter df region
  { df := df
    df_filtered := dff
    shown := (dff.recs.length, df.recs.length)
    csv := to_csv dff
    chart :=
      if dff.recs.isEmpty then none
      else if altairAvailable then some (loc_counts dff) else none
    feed := dff.recs }

/-- A record with a given location, for concrete test tables. -/
def exRec (loc : String) : Record :=
  { display_name := "User", handle := "@user", text := "t", url := "u", location := loc }

example : generate_sample_data 0 = ⟨[], []⟩ := by decide
example : (generate_sample_data 2).recs.length = 2 := by decide
example : tokensOf "india, remote" = ["india", "remote"] := by decide
example : strContains (strLower "Bengaluru, India") "india" = true := by decide
example : query "x" = "x lang:en exclude:retweets exclude:replies" := rfl
example :
    loc_counts (mkRecordFrame [exRec "Mumbai", exRec "Mumbai", exRec "", exRec "Pune"])
      = [("Mumbai", 2), ("Unknown", 1), ("Pune", 1)] := by decide
example :
    loc_counts (mkRecordFrame [exRec "Mumbai", exRec "Pune"])
      = [("Pune", 1), ("Mumbai", 1)] := by decide
example :
    claimAggFirstSeen (mkRecordFrame [exRec "Mumbai", exRec "Pune"])
      = [("Mumbai", 1), ("Pune", 1)] := by decide

/-! ## Helper lemmas -/

theorem recs_mkRecordFrame (rows : List Record) : (mkRecordFrame rows).recs = rows :=
  rfl

theorem length_sample (n : Nat) : (generate_sample_data n).recs.length = n := by
  simp [generate_sample_data, mkRecordFrame]

theorem header_eval :
    joinComma (record_cols.map csvField) = "display_name,handle,text,url,location" := by
  decide

theorem takeWhile_append_cons {p : Char → Bool} (l r : List Char) (c : Char)
    (hall : ∀ x ∈ l, p x = true) (hc : p c = false) :
    (l ++ c :: r).takeWhile p = l := by
  induction l with
  | nil => simp [List.takeWhile_cons, hc]
  | cons a t ih =>
    have ha := hall a (by simp)
    simp [List.takeWhile_cons, ha, ih (fun x hx => hall x (by simp [hx]))]

theorem firstLine_header (j : String) :
    firstLine ("display_name,handle,text,url,location" ++ "\n" ++ j)
      = "display_name,handle,text,url,location" := by
  show String.mk _ = _
  rw [String.data_append, String.data_append, List.append_assoc]
  rw [show ("\n" : String).data ++ j.data = '\n' :: j.data from rfl]
  rw [takeWhile_append_cons _ _ _ (by decide) (by decide)]

theorem cols_sample_pos {n : Nat} (hn : 0 < n) :
    (generate_sample_data n).cols = record_cols := by
  simp only [generate_sample_data, mkRecordFrame]
  rw [if_neg]
  simp only [List.isEmpty_iff, List.map_eq_nil_iff, List.range_eq_nil]
  omega

/-! ## Claim theorems -/

/-- Claim C8: the built query string is the keyword expression passed
through verbatim, then a space, `lang:en`, a space, `exclude:retweets`,
a space and `exclude:replies`; on the quoted keyword input
`"ui designer"` it yields the expected literal. -/
theorem query_builder_spec (k : String) :
    query k = k ++ " " ++ "lang:en" ++ " " ++ "exclude:retweets" ++ " " ++ "exclude:replies"
    ∧ query "\"ui designer\"" = "\"ui designer\" lang:en exclude:retweets exclude:replies" := by
  constructor
  · simp only [query, String.append_assoc]
    rw [show (" " : String) ++ ("lang:en" ++ (" " ++ ("exclude:retweets" ++ (" " ++ "exclude:replies"))))
          = " lang:en exclude:retweets exclude:replies" from by decide]
  · rfl

/-- Claim C9: the aggregation (`loc_counts`) has no effect on the table
consumed by the feed and the CSV export: in every run the filtered table,
the CSV and the feed are exactly the region-filter output of the fetched
table, and none of them changes when the chart dependency's availability
changes.  (In the source, `assign` copies the frame rather than mutating
it; purity of the embedding reflects that the aggregation returns a new
value.) -/
theorem chart_no_frame_effect (liveb : Bool) (env : FetchEnv) (kw : String)
    (n : Nat) (region : String) (a b : Bool) :
    (runApp liveb env kw n region a).df_filtered
        = apply_region_filter (runApp liveb env kw n region a).df region
    ∧ (runApp liveb env kw n region a).csv
        = to_csv (apply_region_filter (runApp liveb env kw n region a).df region)
    ∧ (runApp liveb env kw n region a).feed
        = (apply_region_filter (runApp liveb env kw n region a).df region).recs
    ∧ (runApp liveb env kw n region b).df_filtered = (runApp liveb env kw n region a).df_filtered
    ∧ (runApp liveb env kw n region b).csv = (runApp liveb env kw n region a).csv
    ∧ (runApp liveb env kw n region b).feed = (runApp liveb env kw n region a).feed :=
  ⟨rfl, rfl, rfl, rfl, rfl, rfl⟩

/-- Claim C1: whenever the search module cannot be imported, or the live
iteration raises (an exception surfaces exactly when the stream ends,
raising, within the first `limit + 1` pulls, i.e. when at most `limit`
items were yielded), or the iteration completes with zero collected
records, `scrape_tweets` returns exactly `generate_sample_data limit`.
The embedding of `scrape_tweets` is a total function: the `except` caught
in the source is part of the environment case split, so no exception
propagates. -/
theorem scrape_tweets_fallback (q : String) (limit : Nat) (env : FetchEnv)
    (h : env = .noModule
       ∨ (∃ s, env = .live s true ∧ s.length ≤ limit)
       ∨ (∃ s, env = .live s false ∧ s.take limit = [])) :
    scrape_tweets env q limit = generate_sample_data limit := by
  rcases h with h | ⟨s, rfl, hle⟩ | ⟨s, rfl, hnil⟩
  · rw [h]; rfl
  · simp [scrape_tweets, hle]
  · simp [scrape_tweets, mkRecordFrame, hnil]

/-- Witness for C1 at a concrete input: the import-failure case with
limit 3. -/
theorem scrape_tweets_fallback_witness :
    scrape_tweets .noModule "jobs" 3 = generate_sample_data 3 :=
  scrape_tweets_fallback "jobs" 3 .noModule (Or.inl rfl)

/-- Claim C5: every table `scrape_tweets` returns has at most `limit`
rows, and when the live iteration completes without raising after
yielding at least one but fewer than `limit` items, exactly the collected
normalized rows are returned (no sample substitution). -/
theorem scrape_tweets_short_stream (q : String) (limit : Nat) :
    (∀ env : FetchEnv, (scrape_tweets env q limit).recs.length ≤ limit)
    ∧ ∀ s : List RawItem, 0 < s.length → s.length < limit →
        scrape_tweets (.live s false) q limit = mkRecordFrame (s.map normRaw) := by
  constructor
  · intro env
    match env with
    | .noModule =>
      rw [show scrape_tweets .noModule q limit = generate_sample_data limit from rfl]
      rw [length_sample]
    | .live t r =>
      simp only [scrape_tweets]
      by_cases hc : r = true ∧ t.length ≤ limit
      · rw [if_pos hc, length_sample]
      · rw [if_neg hc]
        by_cases he : (mkRecordFrame ((t.take limit).map normRaw)).recs.isEmpty = true
        · rw [if_pos he, length_sample]
        · rw [if_neg he, recs_mkRecordFrame, List.length_map, List.length_take]
          exact Nat.min_le_left _ _
  · intro s h1 h2
    simp only [scrape_tweets]
    rw [if_neg (by simp)]
    rw [List.take_of_length_le (Nat.le_of_lt h2)]
    rw [if_neg (by
      simp only [recs_mkRecordFrame, List.isEmpty_iff, List.map_eq_nil_iff]
      intro hcon
      rw [hcon] at h1
      exact absurd h1 (by simp))]

/-- A concrete raw item for witnesses. -/
def exRaw : RawItem :=
  { username := some "alice", displayname := none, userlocation := some "Pune",
    content := some "hi", rawContent := none, url := none }

/-- Witness for C5 at a concrete input: a one-item stream with limit 2. -/
theorem scrape_tweets_short_stream_witness :
    (scrape_tweets (.live [exRaw] false) "q" 2).recs.length ≤ 2
    ∧ scrape_tweets (.live [exRaw] false) "q" 2 = mkRecordFrame ([exRaw].map normRaw) :=
  ⟨(scrape_tweets_short_stream "q" 2).1 _,
   (scrape_tweets_short_stream "q" 2).2 [exRaw] (by decide) (by decide)⟩

/-- Claim C4: `generate_sample_data` returns exactly `n` records in
order (`[]` for `n = 0`); record `i` is built from the catalog template
at index `i mod 8`: text is the template text, a space, a hash mark and
`1000 + i`; the URL is the fixed base, the template handle, `/status/`
and `1700000000000000000 + i`; the handle is the template handle behind
an at sign.  Determinism is immediate: the embedding is a pure
function of `n`. -/
theorem generate_sample_data_spec (n i : Nat) (h : i < n) :
    (generate_sample_data n).recs.length = n
    ∧ (generate_sample_data 0).recs = []
    ∧ names.length = 8
    ∧ (generate_sample_data n).recs[i]? =
        some { display_name := (names.get ⟨i % names.length, Nat.mod_lt i (by decide)⟩).1
               handle := "@" ++ (names.get ⟨i % names.length, Nat.mod_lt i (by decide)⟩).2.1
               text := (names.get ⟨i % names.length, Nat.mod_lt i (by decide)⟩).2.2.1
                         ++ " #" ++ Nat.repr (1000 + i)
               url := "https://twitter.com/"
                         ++ (names.get ⟨i % names.length, Nat.mod_lt i (by decide)⟩).2.1
                         ++ "/status/" ++ Nat.repr (1700000000000000000 + i)
               location := (names.get ⟨i % names.length, Nat.mod_lt i (by decide)⟩).2.2.2 } := by
  refine ⟨length_sample n, rfl, rfl, ?_⟩
  show ((List.range n).map sampleRow)[i]? = _
  rw [List.getElem?_map, List.getElem?_range h]
  rfl

/-- Witness for C4 at a concrete input: table of 3, record index 1. -/
theorem generate_sample_data_spec_witness :
    (generate_sample_data 3).recs.length = 3
    ∧ (generate_sample_data 0).recs = []
    ∧ names.length = 8
    ∧ (generate_sample_data 3).recs[1]? =
        some { display_name := (names.get ⟨1 % names.length, Nat.mod_lt 1 (by decide)⟩).1
               handle := "@" ++ (names.get ⟨1 % names.length, Nat.mod_lt 1 (by decide)⟩).2.1
               text := (names.get ⟨1 % names.length, Nat.mod_lt 1 (by decide)⟩).2.2.1
                         ++ " #" ++ Nat.repr (1000 + 1)
               url := "https://twitter.com/"
                         ++ (names.get ⟨1 % names.length, Nat.mod_lt 1 (by decide)⟩).2.1
                         ++ "/status/" ++ Nat.repr (1700000000000000000 + 1)
               location := (names.get ⟨1 % names.length, Nat.mod_lt 1 (by decide)⟩).2.2.2 } :=
  generate_sample_data_spec 3 1 (by decide)

/-- Claim C10: `generate_sample_data 0` is the zero-row, zero-column
frame (`pd.DataFrame([])` infers no schema), its CSV is a single line
that is not the Record header; the header-first CSV shape holds whenever
the table has at least one record. -/
theorem generate_sample_data_zero_schema :
    (generate_sample_data 0).cols = []
    ∧ (generate_sample_data 0).recs = []
    ∧ firstLine (to_csv (generate_sample_data 0)) = ""
    ∧ firstLine (to_csv (generate_sample_data 0)) ≠ "display_name,handle,text,url,location"
    ∧ countNL (to_csv (generate_sample_data 0)) = 1
    ∧ ∀ n, 0 < n →
        firstLine (to_csv (generate_sample_data n)) = "display_name,handle,text,url,location" := by
  refine ⟨rfl, rfl, by decide, by decide, by decide, ?_⟩
  intro n hn
  rw [to_csv, cols_sample_pos hn, header_eval, String.append_assoc]
  exact firstLine_header _

/-- Witness for C10's header-shape implication at `n = 2`. -/
theorem generate_sample_data_zero_schema_witness :
    firstLine (to_csv (generate_sample_data 2)) = "display_name,handle,text,url,location" :=
  generate_sample_data_zero_schema.2.2.2.2.2 2 (by decide)

theorem fieldOf_display_name (r : Record) : fieldOf r "display_name" = r.display_name := rfl

theorem fieldOf_handle (r : Record) : fieldOf r "handle" = r.handle := rfl

theorem fieldOf_text (r : Record) : fieldOf r "text" = r.text := rfl

theorem fieldOf_url (r : Record) : fieldOf r "url" = r.url := rfl

theorem fieldOf_location (r : Record) : fieldOf r "location" = r.location := rfl

theorem countNL_append (a b : String) : countNL (a ++ b) = countNL a + countNL b := by
  simp [countNL, String.data_append, List.count_append]

theorem countNL_concatAll (l : List String) :
    countNL (concatAll l) = (l.map countNL).sum := by
  induction l with
  | nil => rfl
  | cons s t ih => simp [concatAll, countNL_append, ih]

set_option maxRecDepth 8000

/-- Claim C6: on any table carrying the Record schema, `to_csv` emits
exactly the header `display_name,handle,text,url,location` as the first
line, then one CSV row per record in table order (no index column); and
in the live-off, `max_tweets = 40`, empty-region scenario the exported
CSV has exactly 41 newline-terminated lines. -/
theorem csv_export_spec :
    (∀ df : DFrame, df.cols = record_cols →
        to_csv df = "display_name,handle,text,url,location" ++ "\n"
          ++ concatAll (df.recs.map (fun r =>
               joinComma [csvField r.display_name, csvField r.handle, csvField r.text,
                          csvField r.url, csvField r.location] ++ "\n")))
    ∧ countNL (runApp false .noModule default_keywords 40 "" true).csv = 41 := by
  constructor
  · intro df h
    rw [to_csv, h, header_eval]
    simp only [record_cols, List.map_cons, List.map_nil, fieldOf_display_name,
      fieldOf_handle, fieldOf_text, fieldOf_url, fieldOf_location]
  · show countNL (to_csv (apply_region_filter (generate_sample_data 40) "")) = 41
    rw [show apply_region_filter (generate_sample_data 40) "" = generate_sample_data 40 from rfl]
    rw [to_csv, cols_sample_pos (by decide), header_eval]
    rw [countNL_append, countNL_append, countNL_concatAll]
    rw [show countNL "display_name,handle,text,url,location" = 0 from by decide]
    rw [show countNL "\n" = 1 from by decide]
    decide

/-- Witness for C6's schema hypothesis at the one-row sample table. -/
theorem csv_export_spec_witness :
    to_csv (generate_sample_data 1)
      = "display_name,handle,text,url,location" ++ "\n"
        ++ concatAll ((generate_sample_data 1).recs.map (fun r =>
             joinComma [csvField r.display_name, csvField r.handle, csvField r.text,
                        csvField r.url, csvField r.location] ++ "\n")) :=
  csv_export_spec.1 (generate_sample_data 1) (cols_sample_pos (by decide))

theorem stripChars_nil {l : List Char} (h : stripChars l = []) :
    ∀ c ∈ l, c.isWhitespace = true := by
  unfold stripChars at h
  rw [List.reverse_eq_nil_iff, List.dropWhile_eq_nil_iff] at h
  intro c hc
  have hsplit : c ∈ l.takeWhile Char.isWhitespace ++ l.dropWhile Char.isWhitespace := by
    rw [List.takeWhile_append_dropWhile]; exact hc
  rcases List.mem_append.mp hsplit with h1 | h2
  · exact List.mem_takeWhile_imp h1
  · exact h c (List.mem_reverse.mpr h2)

theorem splitCommaCh_no_comma : ∀ (l acc : List Char), (∀ c ∈ l, ¬ c = ',') →
    splitCommaCh l acc = [acc.reverse ++ l]
  | [], acc, _ => by simp [splitCommaCh]
  | c :: cs, acc, h => by
    simp only [splitCommaCh]
    rw [if_neg (h c (by simp))]
    rw [splitCommaCh_no_comma cs (c :: acc) (fun x hx => h x (by simp [hx]))]
    simp

theorem tokensOf_of_strip_empty {s : String} (h : pyStrip s = "") : tokensOf s = [] := by
  have hdata : stripChars s.data = [] := congrArg String.data h
  have hall : ∀ c ∈ s.data, c.isWhitespace = true := stripChars_nil hdata
  have hnc : ∀ c ∈ s.data, ¬ c = ',' := by
    intro c hc hceq
    have hw := hall c hc
    rw [hceq] at hw
    exact absurd hw (by decide)
  unfold tokensOf pySplitComma
  rw [splitCommaCh_no_comma s.data [] hnc]
  simp only [List.reverse_nil, List.nil_append, List.map_cons, List.map_nil]
  rw [show (⟨s.data⟩ : String) = s from rfl]
  simp [List.filter_cons, h]

theorem strne_data_ne {s : String} (h : s ≠ "") : s.data ≠ [] := by
  intro hd
  apply h
  cases s
  simp at hd
  rw [hd]

/-- The concrete table of claim C3's example: locations
`Bengaluru, India`, `Remote`, `San Francisco, CA`, and empty. -/
def exDF3 : DFrame :=
  mkRecordFrame [exRec "Bengaluru, India", exRec "Remote", exRec "San Francisco, CA", exRec ""]

/-- Claim C3: with an empty token list (including empty or
whitespace-only filter strings) the region filter returns the table
unchanged; otherwise it keeps, in order, exactly the rows whose
lowercased location contains some token, a row with empty location is
never kept, and on the example table the filter `india, remote` keeps
exactly the first two rows. -/
theorem apply_region_filter_spec (df : DFrame) (s : String) :
    (tokensOf s = [] → apply_region_filter df s = df)
    ∧ (tokensOf s ≠ [] →
        (apply_region_filter df s).cols = df.cols
        ∧ (apply_region_filter df s).recs
            = df.recs.filter (fun row => (tokensOf s).any (fun t => strContains (strLower row.location) t))
        ∧ ∀ row ∈ (apply_region_filter df s).recs, row.location ≠ "")
    ∧ apply_region_filter exDF3 "india, remote" = mkRecordFrame [exRec "Bengaluru, India", exRec "Remote"] := by
  refine ⟨?_, ?_, by decide⟩
  · intro h
    by_cases hs : pyStrip s = ""
    · simp [apply_region_filter, hs]
    · simp [apply_region_filter, hs, h]
  · intro h
    have hs : ¬ pyStrip s = "" := fun hs => h (tokensOf_of_strip_empty hs)
    have hrecs : (apply_region_filter df s).recs
        = df.recs.filter (fun row => (tokensOf s).any (fun t => strContains (strLower row.location) t)) := by
      simp [apply_region_filter, hs, h]
    refine ⟨by simp [apply_region_filter, hs, h], hrecs, ?_⟩
    intro row hrow hloc
    rw [hrecs] at hrow
    have hpred := (List.mem_filter.mp hrow).2
    obtain ⟨t, ht, hcon⟩ := List.any_eq_true.mp hpred
    obtain ⟨r, hr, hrt⟩ := List.mem_map.mp ht
    have hrne : pyStrip r ≠ "" := by
      intro hcontr
      have := (List.mem_filter.mp hr).2
      rw [hcontr] at this
      simp at this
    have htne : t.data ≠ [] := by
      rw [← hrt]
      show ((pyStrip r).data.map Char.toLower) ≠ []
      simp only [ne_eq, List.map_eq_nil_iff]
      exact strne_data_ne hrne
    rw [hloc] at hcon
    rw [show strLower "" = "" from rfl] at hcon
    rw [show strContains "" t = t.data.isEmpty from rfl] at hcon
    rw [List.isEmpty_iff] at hcon
    exact htne hcon

/-- Witness for C3 at the example table and filter string. -/
theorem apply_region_filter_spec_witness :
    (tokensOf "india, remote" = [] → apply_region_filter exDF3 "india, remote" = exDF3)
    ∧ (tokensOf "india, remote" ≠ [] →
        (apply_region_filter exDF3 "india, remote").cols = exDF3.cols
        ∧ (apply_region_filter exDF3 "india, remote").recs
            = exDF3.recs.filter (fun row => (tokensOf "india, remote").any (fun t => strContains (strLower row.location) t))
        ∧ ∀ row ∈ (apply_region_filter exDF3 "india, remote").recs, row.location ≠ "")
    ∧ apply_region_filter exDF3 "india, remote" = mkRecordFrame [exRec "Bengaluru, India", exRec "Remote"] :=
  apply_region_filter_spec exDF3 "india, remote"

/-- The handle begins with an at sign exactly once: its first character
is `@` and its second (when present) is not. -/
def beginsAtOnce (h : String) : Prop :=
  h.data.head? = some '@' ∧ (h.data.drop 1).head? ≠ some '@'

/-- The raw-item stream of an environment (empty when the module is
missing). -/
def streamOf : FetchEnv → List RawItem
  | .noModule => []
  | .live s _ => s

/-- A live environment whose single item reports a username that itself
starts with an at sign (nothing in `scrape_tweets` forbids this). -/
def exEnvC7 : FetchEnv :=
  .live [{ username := some "@x", displayname := some "D", userlocation := some "L",
           content := some "hello", rawContent := none, url := some "u" }] false

instance : DecidablePred beginsAtOnce := fun h => by
  unfold beginsAtOnce
  infer_instance

theorem beginsAtOnce_at (u : String) (hu : u.data.head? ≠ some '@') :
    beginsAtOnce ("@" ++ u) := by
  constructor
  · rw [show ("@" ++ u).data = '@' :: u.data from rfl]
    rfl
  · rw [show ("@" ++ u).data = '@' :: u.data from rfl]
    simpa using hu

theorem handle_prop_sample (n : Nat) :
    ∀ r ∈ (generate_sample_data n).recs, beginsAtOnce r.handle := by
  have hcat : ∀ t ∈ names, (t.2.1 : String).data.head? ≠ some '@' := by decide
  intro r hr
  obtain ⟨i, _, rfl⟩ := List.mem_map.mp hr
  show beginsAtOnce ("@" ++ (names.get ⟨i % names.length, Nat.mod_lt i (by decide)⟩).2.1)
  exact beginsAtOnce_at _ (hcat _ (List.get_mem names _ _))

theorem normRaw_handle (it : RawItem) :
    (normRaw it).handle = ""
    ∨ (∃ u, it.username = some u ∧ u ≠ "" ∧ (normRaw it).handle = "@" ++ u) := by
  rcases h : it.username with _ | u
  · left
    simp [normRaw, pyOr, h]
  · by_cases hu : u = ""
    · left
      simp [normRaw, pyOr, h, hu]
    · right
      exact ⟨u, rfl, hu, by simp [normRaw, pyOr, h, hu]⟩

theorem scrape_recs_cases (env : FetchEnv) (q : String) (limit : Nat) :
    scrape_tweets env q limit = generate_sample_data limit
    ∨ ∃ s b, env = .live s b ∧ (scrape_tweets env q limit).recs = (s.take limit).map normRaw := by
  cases env with
  | noModule => exact Or.inl rfl
  | live s b =>
    by_cases hc : b = true ∧ s.length ≤ limit
    · left
      simp [scrape_tweets, hc]
    · by_cases he : ((s.take limit).map normRaw).isEmpty = true
      · left
        simp only [scrape_tweets]
        rw [if_neg hc]
        rw [if_pos (show (mkRecordFrame ((s.take limit).map normRaw)).recs.isEmpty = true from he)]
      · right
        refine ⟨s, b, rfl, ?_⟩
        simp only [scrape_tweets]
        rw [if_neg hc]
        rw [if_neg (show ¬ (mkRecordFrame ((s.take limit).map normRaw)).recs.isEmpty = true from he)]
        rfl

/-- Counterexample to claim C7 as stated: a live item whose reported
username already starts with `@` yields the handle `@@x`, which begins
with `@` twice, not exactly once. -/
theorem handle_at_counterexample :
    (scrape_tweets exEnvC7 "q" 1).recs.map Record.handle = ["@@x"]
    ∧ ¬ ("@@x" = "" ∨ beginsAtOnce "@@x") := by
  constructor
  · decide
  · decide

/-- Claim C7 as amended: every handle in every table `scrape_tweets`
returns is empty or starts with `@`; it begins with `@` exactly once
whenever no upstream username itself starts with `@` (sample-catalog
handles never do, so sample tables always satisfy the strong form).
Location being a (possibly empty) string, never null, is carried by the
embedding's types: `normRaw` coalesces a missing location to `""`. -/
theorem handle_format (env : FetchEnv) (q : String) (limit : Nat) :
    (∀ r ∈ (scrape_tweets env q limit).recs, r.handle = "" ∨ r.handle.data.head? = some '@')
    ∧ ((∀ it ∈ streamOf env, ∀ u, it.username = some u → u.data.head? ≠ some '@') →
        ∀ r ∈ (scrape_tweets env q limit).recs, r.handle = "" ∨ beginsAtOnce r.handle) := by
  have hmain : ∀ r ∈ (scrape_tweets env q limit).recs,
      (r.handle = "" ∨ r.handle.data.head? = some '@')
      ∧ ((∀ it ∈ streamOf env, ∀ u, it.username = some u → u.data.head? ≠ some '@') →
          r.handle = "" ∨ beginsAtOnce r.handle) := by
    rcases scrape_recs_cases env q limit with h | ⟨s, b, rfl, h⟩
    · intro r hr
      rw [h] at hr
      have hb := handle_prop_sample limit r hr
      exact ⟨Or.inr hb.1, fun _ => Or.inr hb⟩
    · intro r hr
      rw [h] at hr
      obtain ⟨it, hit, rfl⟩ := List.mem_map.mp hr
      have hit2 : it ∈ s := List.take_subset limit s hit
      rcases normRaw_handle it with hh | ⟨u, hu, _, hh⟩
      · exact ⟨Or.inl hh, fun _ => Or.inl hh⟩
      · refine ⟨Or.inr ?_, fun hclean => Or.inr ?_⟩
        · rw [hh]
          rfl
        · rw [hh]
          exact beginsAtOnce_at u (hclean it hit2 u hu)
  exact ⟨fun r hr => (hmain r hr).1, fun hc r hr => (hmain r hr).2 hc⟩

/-- Witness for the amended C7 at a concrete clean input: the live item
with username `alice` yields handle `@alice`, which begins with `@`
exactly once. -/
theorem handle_format_witness :
    (scrape_tweets (.live [exRaw] false) "q" 5).recs.map Record.handle = ["@alice"]
    ∧ ("@alice" = "" ∨ beginsAtOnce "@alice") := by
  constructor
  · decide
  · exact (handle_format (.live [exRaw] false) "q" 5).2 (by decide) (normRaw exRaw) (by decide)

theorem nodup_dedupFS (l : List String) : (dedupFS l).Nodup := by
  induction l with
  | nil => exact List.nodup_nil
  | cons x t ih =>
    rw [dedupFS, List.nodup_cons]
    constructor
    · intro hmem
      have := (List.mem_filter.mp hmem).2
      simp at this
    · exact ih.filter _

theorem mem_dedupFS {a : String} : ∀ {l : List String}, a ∈ dedupFS l ↔ a ∈ l := by
  intro l
  induction l with
  | nil => simp [dedupFS]
  | cons x t ih =>
    rw [dedupFS]
    by_cases hax : a = x
    · subst hax
      simp
    · constructor
      · intro h
        rcases List.mem_cons.mp h with h | h
        · exact absurd h hax
        · exact List.mem_cons_of_mem x (ih.mp (List.mem_filter.mp h).1)
      · intro h
        rcases List.mem_cons.mp h with h | h
        · exact absurd h hax
        · refine List.mem_cons_of_mem x (List.mem_filter.mpr ⟨ih.mpr h, ?_⟩)
          simp [hax]

theorem pair_sublist_of_mem {α : Type} {a b : α} :
    ∀ {l : List α}, a ∈ l → b ∈ l → a ≠ b →
      List.Sublist [a, b] l ∨ List.Sublist [b, a] l := by
  intro l
  induction l with
  | nil => intro ha; exact absurd ha (by simp)
  | cons x t ih =>
    intro ha hb hne
    rcases List.mem_cons.mp ha with rfl | ha2
    · have hb2 : b ∈ t := by
        rcases List.mem_cons.mp hb with h | h
        · exact absurd h.symm hne
        · exact h
      exact Or.inl (List.Sublist.cons₂ a (List.singleton_sublist.mpr hb2))
    · rcases List.mem_cons.mp hb with rfl | hb2
      · exact Or.inr (List.Sublist.cons₂ b (List.singleton_sublist.mpr ha2))
      · rcases ih ha2 hb2 hne with h | h
        · exact Or.inl (h.cons x)
        · exact Or.inr (h.cons x)

theorem not_pair_sublist_both {α : Type} {a b : α} :
    ∀ {l : List α}, l.Nodup → List.Sublist [a, b] l → List.Sublist [b, a] l →
      a ≠ b → False := by
  intro l
  induction l with
  | nil => intro _ h; simp at h
  | cons x t ih =>
    intro nd h1 h2 hne
    cases h1 with
    | cons _ h1t =>
      cases h2 with
      | cons _ h2t => exact ih (List.Nodup.of_cons nd) h1t h2t hne
      | cons₂ _ h2t =>
        have hbt : b ∈ t := h1t.subset (by simp)
        exact (List.nodup_cons.mp nd).1 hbt
    | cons₂ _ h1t =>
      cases h2 with
      | cons _ h2t =>
        have hat : a ∈ t := h2t.subset (by simp)
        exact (List.nodup_cons.mp nd).1 hat
      | cons₂ _ h2t => exact hne rfl

/-- Stability of the embedded count sort: on a list of pairs with
strictly ascending keys, the ascending-by-size insertion sort is sorted
by size with equal-size ties kept in ascending key order. -/
theorem pairwise_insertionSort_stable (pairs : List (String × Nat))
    (hkey : pairs.Pairwise (fun a b => keyLt a.1 b.1)) :
    (List.insertionSort bySize pairs).Pairwise
      (fun a b => a.2 < b.2 ∨ (a.2 = b.2 ∧ keyLt a.1 b.1)) := by
  have hnd : pairs.Nodup := hkey.imp (fun h heq => by
    subst heq
    exact h.2 h.1)
  have ho_sorted : (List.insertionSort bySize pairs).Pairwise bySize :=
    List.sorted_insertionSort bySize pairs
  have ho_nd : (List.insertionSort bySize pairs).Pairwise (fun a b => a ≠ b) :=
    (List.perm_insertionSort bySize pairs).nodup_iff.mpr hnd
  rw [List.pairwise_iff_forall_sublist]
  intro a b hsub
  have hne : a ≠ b := List.pairwise_iff_forall_sublist.mp ho_nd hsub
  have hle : bySize a b := List.pairwise_iff_forall_sublist.mp ho_sorted hsub
  rcases Nat.lt_or_ge a.2 b.2 with hlt | hge
  · exact Or.inl hlt
  · have heq : a.2 = b.2 := Nat.le_antisymm hle hge
    refine Or.inr ⟨heq, ?_⟩
    have ha : a ∈ pairs := (List.mem_insertionSort bySize).mp (hsub.subset (by simp))
    have hb : b ∈ pairs := (List.mem_insertionSort bySize).mp (hsub.subset (by simp))
    rcases pair_sublist_of_mem ha hb hne with hp | hp
    · exact List.pairwise_iff_forall_sublist.mp hkey hp
    · exfalso
      have hba : bySize b a := Nat.le_of_eq heq.symm
      have h2 : List.Sublist [b, a] (List.insertionSort bySize pairs) :=
        List.pair_sublist_insertionSort hba hp
      exact not_pair_sublist_both ho_nd hsub h2 hne

/-- The `(label, size)` rows of the grouping step have strictly
ascending (lexicographic) keys. -/
theorem pairs_key_sorted (locs : List String) :
    (groupby_size locs).Pairwise (fun a b => keyLt a.1 b.1) := by
  have hs : (List.insertionSort keyLe (dedupFS locs)).Pairwise keyLe :=
    List.sorted_insertionSort keyLe _
  have hnd : (List.insertionSort keyLe (dedupFS locs)).Pairwise (fun a b => a ≠ b) :=
    (List.perm_insertionSort keyLe _).nodup_iff.mpr (nodup_dedupFS locs)
  have hstrict : (List.insertionSort keyLe (dedupFS locs)).Pairwise keyLt :=
    (hs.and hnd).imp (fun h => ⟨h.1, fun hba => h.2 (keyLe_antisymm h.1 hba)⟩)
  exact hstrict.map _ (fun a b h => h)

/-- The concrete table of claim C2's example: locations `Mumbai`,
`Mumbai`, empty, `Pune`. -/
def exDF2 : DFrame :=
  mkRecordFrame [exRec "Mumbai", exRec "Mumbai", exRec "", exRec "Pune"]

/-- A two-row table whose two locations each occur once, with `Mumbai`
seen before `Pune`. -/
def exDF2b : DFrame :=
  mkRecordFrame [exRec "Mumbai", exRec "Pune"]

/-- Counterexample to claim C2's tie rule as stated: on first-seen
locations `Mumbai` then `Pune` (each with count 1), the source's
aggregation (lexicographically ordered grouping, then the descending
sort's reversal of the ascending order) yields `Pune` before `Mumbai`,
while the claim's first-seen stable ordering yields `Mumbai` before
`Pune`. -/
theorem loc_counts_tie_counterexample :
    loc_counts exDF2b = [("Pune", 1), ("Mumbai", 1)]
    ∧ claimAggFirstSeen exDF2b = [("Mumbai", 1), ("Pune", 1)]
    ∧ loc_counts exDF2b ≠ claimAggFirstSeen exDF2b :=
  ⟨by decide, by decide, by decide⟩

/-- Claim C2 as amended: the aggregation substitutes `Unknown` for empty
locations, groups them with correct counts, sorts by count descending
with equal-count groups in descending lexicographic label order (the
grouping step emits groups in ascending label order and the descending
sort reverses ties), truncates to at most 15 entries (keeping every group
when there are at most 15), and on the example table with locations
`Mumbai, Mumbai, empty, Pune` returns
`[(Mumbai, 2), (Unknown, 1), (Pune, 1)]`. -/
theorem loc_counts_spec (df : DFrame) :
    (loc_counts df).Pairwise (fun a b => b.2 < a.2 ∨ (b.2 = a.2 ∧ keyLt b.1 a.1))
    ∧ (∀ p ∈ loc_counts df,
        p.1 ∈ df.recs.map (fun r => normLoc r.location)
        ∧ p.2 = (df.recs.map (fun r => normLoc r.location)).count p.1)
    ∧ (loc_counts df).length ≤ 15
    ∧ ((dedupFS (df.recs.map (fun r => normLoc r.location))).length ≤ 15 →
        ∀ k ∈ dedupFS (df.recs.map (fun r => normLoc r.location)),
          k ∈ (loc_counts df).map Prod.fst)
    ∧ loc_counts exDF2 = [("Mumbai", 2), ("Unknown", 1), ("Pune", 1)] := by
  refine ⟨?_, ?_, ?_, ?_, by decide⟩
  · have h1 := pairwise_insertionSort_stable (groupby_size (df.recs.map (fun r => normLoc r.location)))
      (pairs_key_sorted (df.recs.map (fun r => normLoc r.location)))
    have h2 := List.pairwise_reverse.mpr h1
    exact List.Pairwise.sublist (List.take_sublist _ _) h2
  · intro p hp
    have hp1 : p ∈ List.insertionSort bySize (groupby_size (df.recs.map (fun r => normLoc r.location))) :=
      List.mem_reverse.mp (List.take_subset _ _ hp)
    have hp2 := (List.mem_insertionSort bySize).mp hp1
    obtain ⟨k, hk, rfl⟩ := List.mem_map.mp hp2
    exact ⟨mem_dedupFS.mp ((List.mem_insertionSort keyLe).mp hk), rfl⟩
  · exact List.length_take_le _ _
  · intro hlen k hk
    have hlens : ((List.insertionSort bySize (groupby_size (df.recs.map (fun r => normLoc r.location)))).reverse).length
        = (dedupFS (df.recs.map (fun r => normLoc r.location))).length := by
      rw [List.length_reverse, List.length_insertionSort]
      unfold groupby_size
      rw [List.length_map, List.length_insertionSort]
    have htake : ((List.insertionSort bySize (groupby_size (df.recs.map (fun r => normLoc r.location)))).reverse).take 15
        = (List.insertionSort bySize (groupby_size (df.recs.map (fun r => normLoc r.location)))).reverse := by
      apply List.take_of_length_le
      rw [hlens]
      exact hlen
    show k ∈ (loc_counts df).map Prod.fst
    rw [show loc_counts df
        = ((List.insertionSort bySize (groupby_size (df.recs.map (fun r => normLoc r.location)))).reverse).take 15
      from rfl, htake]
    refine List.mem_map.mpr ⟨(k, (df.recs.map (fun r => normLoc r.location)).count k), ?_, rfl⟩
    rw [List.mem_reverse, List.mem_insertionSort]
    exact List.mem_map.mpr ⟨k, (List.mem_insertionSort keyLe).mpr hk, rfl⟩

/-- Witness for the amended C2's truncation-completeness implication at
the two-row table: both groups appear among the output keys. -/
theorem loc_counts_spec_witness :
    (dedupFS (exDF2b.recs.map (fun r => normLoc r.location))).length ≤ 15
    ∧ ∀ k ∈ dedupFS (exDF2b.recs.map (fun r => normLoc r.location)),
        k ∈ (loc_counts exDF2b).map Prod.fst :=
  ⟨by decide, (loc_counts_spec exDF2b).2.2.2.1 (by decide)⟩
